import Mathlib

/-!
# Verification of the Emil recruitment backend core

Shallow embedding of the resume fact extractor (`app/services/cv_parser.py`),
the scoring engine (`app/services/ai_scoring.py`), the background pipeline
(`app/api/applications.py`, `process_application`) and the report summary
(`app/api/reports.py`, `generate_report_summary`), together with theorems
checking the specified behaviour.

Texts are modelled as lists of characters.  Python `str.lower()` / `str.title()`
are modelled by their ASCII case folding (all texts and vocabulary terms the
properties quantify over concretely are ASCII).  Rational arithmetic models
Python's numeric expressions in the scoring engine (every constant involved is
exactly representable and every bound checked is reached at exact values, so
the rational model agrees with the float evaluation on the facts proved here).
-/

namespace Emil

/-- Texts are lists of characters. -/
abbrev Str := List Char

/-- ASCII lower-casing of one character, as Python `str.lower` acts on the
ASCII range: `A`..`Z` (codes 65..90) map to codes 97..122, everything else
is unchanged. -/
def pyLowerChar (c : Char) : Char :=
  if 65 ≤ c.toNat ∧ c.toNat ≤ 90 then Char.ofNat (c.toNat + 32) else c

/-- ASCII upper-casing of one character (Python `str.upper` on ASCII). -/
def pyUpperChar (c : Char) : Char :=
  if 97 ≤ c.toNat ∧ c.toNat ≤ 122 then Char.ofNat (c.toNat - 32) else c

/-- Python `text.lower()`. -/
def lowerStr (s : Str) : Str := s.map pyLowerChar

/-- Helper for `pyTitle`: the flag records whether the previous character was
alphabetic (a "cased" character). -/
def pyTitleAux : Bool → Str → Str
  | _, [] => []
  | prevAlpha, c :: rest =>
    (if c.isAlpha then (if prevAlpha then pyLowerChar c else pyUpperChar c) else c)
      :: pyTitleAux c.isAlpha rest

/-- Python `str.title()`: the first alphabetic character of each run is
upper-cased, subsequent ones lower-cased. -/
def pyTitle (s : Str) : Str := pyTitleAux false s

/-- Python's substring test `needle in hay` (contiguous substring;
the empty needle is contained in everything). -/
def pyIn (needle : Str) : Str → Bool
  | [] => needle.isPrefixOf []
  | c :: rest => needle.isPrefixOf (c :: rest) || pyIn needle rest

/-- The characters Python `str.split()` / `str.strip()` treat as whitespace
(ASCII range). -/
def isPySpace (c : Char) : Bool :=
  c = ' ' || c = '\t' || c = '\n' || c = '\x0b' || c = '\x0c' || c = '\r'

/-- Helper for `pyWords`; the accumulator holds the current word reversed. -/
def pyWordsAux (acc : Str) : Str → List Str
  | [] => if acc.isEmpty then [] else [acc.reverse]
  | c :: rest =>
    if isPySpace c then
      (if acc.isEmpty then pyWordsAux [] rest else acc.reverse :: pyWordsAux [] rest)
    else
      pyWordsAux (c :: acc) rest

/-- Python `line.split()`: split on runs of whitespace, discarding empty
chunks. -/
def pyWords (line : Str) : List Str := pyWordsAux [] line

/-- Python `s.strip()`: remove leading and trailing whitespace. -/
def pyStrip (s : Str) : Str :=
  ((s.dropWhile isPySpace).reverse.dropWhile isPySpace).reverse

/-- Helper for `splitLines`; the accumulator holds the current line reversed. -/
def splitLinesAux (acc : Str) : Str → List Str
  | [] => [acc.reverse]
  | c :: rest =>
    if c = '\n' then acc.reverse :: splitLinesAux [] rest
    else splitLinesAux (c :: acc) rest

/-- Python `text.split('\n')` (keeps empty lines, result is never empty). -/
def splitLines (text : Str) : List Str := splitLinesAux [] text

/-! ## Keyword vocabularies

`skills_keywords` is the list in `CVParser._extract_info_from_text`
(cv_parser.py lines 91-97); `common_skills` is the list in
`AIScoringService._extract_keywords` (ai_scoring.py lines 82-89). -/

/-- The fact extractor's skill vocabulary (cv_parser.py). -/
def skills_keywords : List Str :=
  ["python", "javascript", "java", "react", "angular", "vue", "node", "express",
   "django", "flask", "fastapi", "sql", "nosql", "mongodb", "postgresql", "mysql",
   "aws", "azure", "gcp", "docker", "kubernetes", "ci/cd", "git", "jenkins",
   "rest", "graphql", "typescript", "html", "css", "sass", "tailwind", "bootstrap",
   "machine learning", "ai", "data science", "pandas", "numpy", "tensorflow",
   "pytorch"].map String.toList

/-- The scoring engine's keyword vocabulary (ai_scoring.py). -/
def common_skills : List Str :=
  ["python", "javascript", "java", "react", "angular", "vue", "node", "express",
   "django", "flask", "fastapi", "sql", "nosql", "mongodb", "postgresql", "mysql",
   "aws", "azure", "gcp", "docker", "kubernetes", "ci/cd", "git", "jenkins",
   "rest", "graphql", "typescript", "html", "css", "sass", "tailwind", "bootstrap",
   "machine learning", "ai", "data science", "pandas", "numpy", "tensorflow",
   "pytorch",
   "agile", "scrum", "project management", "leadership", "communication",
   "teamwork"].map String.toList

/-- The six vocabulary entries present only in the scoring engine's list. -/
def softSkillTerms : List Str :=
  ["agile", "scrum", "project management", "leadership", "communication",
   "teamwork"].map String.toList

/-- `AIScoringService._extract_keywords`: the vocabulary entries occurring as
substrings of the lowered text, as a set (`list(set(...))`, modelled by
`dedup`). -/
def extract_keywords (text : Str) : List Str :=
  (common_skills.filter (fun skill => pyIn skill (lowerStr text))).dedup

/-- The skill-detection part of `CVParser._extract_info_from_text`: matching
vocabulary entries, title-cased, deduplicated. -/
def parser_found_skills (text : Str) : List Str :=
  ((skills_keywords.filter (fun skill => pyIn skill (lowerStr text))).map pyTitle).dedup

/-! ## Email extraction (cv_parser.py lines 76-88) -/

/-- The inner word loop of the email scan: the first whitespace-delimited token
of a line containing `@` and `.` that (a) contains `@`, `.` and no space and
(b) whose stripped, lowered form contains exactly one `@`. -/
def findEmailInLine (line : Str) : Option Str :=
  if line.contains '@' && line.contains '.' then
    (pyWords line).findSome? (fun word =>
      if word.contains '@' && word.contains '.' && !(word.contains ' ') then
        let email_candidate := lowerStr (pyStrip word)
        if email_candidate.count '@' = 1 then some email_candidate else none
      else none)
  else none

/-- The email-extraction loop of `CVParser._extract_info_from_text`. -/
def extractEmail (text : Str) : Option Str :=
  (splitLines text).findSome? findEmailInLine

/-- The structured facts record produced by the fact extractor. -/
structure ParsedCV where
  email : Option Str := none
  skills : List Str := []
  text_length : Nat := 0
  raw_text_preview : Str := []
deriving DecidableEq

/-- `CVParser._extract_info_from_text`: the full facts record. -/
def extract_info_from_text (text : Str) : ParsedCV :=
  { email := extractEmail text
    skills := parser_found_skills text
    text_length := text.length
    raw_text_preview :=
      if text.length > 500 then text.take 500 ++ "...".toList else text }

/-! ## Scoring engine (ai_scoring.py) -/

/-- Application status (`ApplicationStatus` enum in app/models.py, and the
status strings produced by the scoring engine). -/
inductive AppStatus where
  | pending
  | shortlisted
  | flagged
  | rejected
deriving DecidableEq

/-- The dictionary returned by `AIScoringService._basic_scoring`. -/
structure ScoringResult where
  score : Int
  status : AppStatus
  feedback : String
  matched_skills : Nat
  total_required_skills : Nat
deriving DecidableEq

/-- Python `int(...)` on a rational: truncation toward zero. -/
def pyInt (q : ℚ) : Int := if 0 ≤ q then ⌊q⌋ else ⌈q⌉

/-- `AIScoringService._basic_scoring`: base score 50, up to 40 points for
matched required keywords, up to 10 points for text length, clamped to
[0, 100], truncated to an integer; status from the clamped score. -/
def basic_scoring (job_requirements : Str) (parsed_cv_data : ParsedCV) : ScoringResult :=
  let cv_skills := parsed_cv_data.skills
  let required_keywords := extract_keywords job_requirements
  let matchesN : Nat :=
    required_keywords.countP
      (fun keyword => cv_skills.any (fun skill => pyIn (lowerStr keyword) (lowerStr skill)))
  let score₁ : ℚ :=
    if required_keywords.length ≠ 0 then
      let match_percentage : ℚ := (matchesN : ℚ) / (required_keywords.length : ℚ) * 100
      50 + min (match_percentage * 0.4) 40
    else 50
  let score₂ : ℚ :=
    score₁ +
      (if parsed_cv_data.text_length > 2000 then 10
       else if parsed_cv_data.text_length > 1000 then 5
       else 0)
  let score₃ : ℚ := max 0 (min 100 score₂)
  let status : AppStatus :=
    if score₃ ≥ 75 then .shortlisted
    else if score₃ ≥ 50 then .flagged
    else .rejected
  { score := pyInt score₃
    status := status
    feedback := "Matched " ++ toString matchesN ++ " out of "
      ++ toString required_keywords.length ++ " key skills"
    matched_skills := matchesN
    total_required_skills := required_keywords.length }

/-- `AIScoringService._advanced_ai_scoring` (placeholder): the basic result
with feedback possibly extended; score and status are untouched. -/
def advanced_ai_scoring (job_requirements : Str) (parsed_cv_data : ParsedCV) : ScoringResult :=
  let basic_result := basic_scoring job_requirements parsed_cv_data
  if basic_result.score > 80 then
    { basic_result with feedback := basic_result.feedback ++ " | Strong AI match" }
  else if basic_result.score < 30 then
    { basic_result with feedback := basic_result.feedback ++ " | Low AI confidence" }
  else basic_result

/-- `AIScoringService.score_application`: the basic path when no OpenAI key is
configured, otherwise the advanced path (which itself is pure here and never
fails, so the fallback branch of the `try` is not reachable in the model). -/
def score_application (hasOpenAIKey : Bool) (job_requirements : Str)
    (parsed_cv_data : ParsedCV) : ScoringResult :=
  if !hasOpenAIKey then basic_scoring job_requirements parsed_cv_data
  else advanced_ai_scoring job_requirements parsed_cv_data

/-! ## Persistence model and the background pipeline (applications.py) -/

/-- An `Application` row (the fields `process_application` touches). -/
structure ApplicationRec where
  id : Nat
  job_id : Nat
  applicant_email : String
  resume_file : Option String := none
  status : AppStatus := .pending
  ai_score : Option Int := none
  parsed_data : Option ParsedCV := none
deriving DecidableEq

/-- A `Job` row (the fields `process_application` touches). -/
structure JobRec where
  id : Nat
  requirements : Str
deriving DecidableEq

/-- The persistent store. -/
structure DB where
  applications : List ApplicationRec
  jobs : List JobRec
deriving DecidableEq

/-- `db.query(Application).filter(Application.id == application_id).first()`. -/
def findApp (db : DB) (application_id : Nat) : Option ApplicationRec :=
  db.applications.find? (fun a => a.id == application_id)

/-- `db.query(Job).filter(Job.id == job_id).first()`. -/
def findJob (db : DB) (job_id : Nat) : Option JobRec :=
  db.jobs.find? (fun j => j.id == job_id)

/-- Committing a mutated application row: replace the row with the same id. -/
def writeApp (db : DB) (a : ApplicationRec) : DB :=
  { db with applications := db.applications.map (fun b => if b.id == a.id then a else b) }

/-- Environment of one pipeline run: configuration, the file system, the
resume-parser outcome, and which step (if any) raises an unexpected error.
`parse_resume` itself catches all its errors and returns `None`, so
`parseResult` is its (never-raising) outcome; the raise flags model unexpected
errors at the corresponding step of `process_application`'s `try` block. -/
structure PipelineEnv where
  hasOpenAIKey : Bool
  fileExists : String → Bool
  parseResult : String → Option ParsedCV
  parseRaises : Bool
  scoreRaises : Bool
  commitRaises : Bool

/-- Step (b) of the pipeline: `parsed_data` is the parser outcome when a
non-empty resume file reference exists and the file is present, else `None`. -/
def pipelineParsed (env : PipelineEnv) (app : ApplicationRec) : Option ParsedCV :=
  match app.resume_file with
  | some f => if f.length ≠ 0 && env.fileExists f then env.parseResult f else none
  | none => none

/-- Step (c) of the pipeline: the scoring result. -/
def pipelineScore (env : PipelineEnv) (job : JobRec) (app : ApplicationRec) : ScoringResult :=
  score_application env.hasOpenAIKey job.requirements ((pipelineParsed env app).getD {})

/-- The body of `process_application`'s `try` block after the lookups.  An
uncaught error is returned as `Except.error` carrying the session's pending
application object at the moment of the error (the ORM object already holds
any attribute assignments made before the error). -/
def processInner (env : PipelineEnv) (db : DB) (app : ApplicationRec) (job : JobRec) :
    Except ApplicationRec DB :=
  if env.parseRaises then .error app
  else if env.scoreRaises then .error app
  else
    let result := pipelineScore env job app
    let app' := { app with
      parsed_data := pipelineParsed env app
      ai_score := some result.score
      status := result.status }
    if env.commitRaises then .error app'
    else .ok (writeApp db app')

/-- `process_application`: look up the application and its job (silent no-op
if either is missing), run parse/score/persist, and on any error commit the
pending application object with status forced to `flagged`. -/
def process (env : PipelineEnv) (db : DB) (application_id : Nat) : DB :=
  match findApp db application_id with
  | none => db
  | some application =>
    match findJob db application.job_id with
    | none => db
    | some job =>
      match processInner env db application job with
      | .ok db' => db'
      | .error pending => writeApp db { pending with status := .flagged }

/-! ## Report summary: top candidates (reports.py lines 112-132) -/

/-- One entry of the report's top-candidates list. -/
structure CandidateEntry where
  email : String
  score : Int
  status : AppStatus
  skills : List Str
deriving DecidableEq

/-- The sort key `lambda x: x.ai_score` (all sorted rows have a score). -/
def scoreKey (app : ApplicationRec) : Int := app.ai_score.getD 0

/-- Python `sorted(..., key=lambda x: x.ai_score, reverse=True)[:5]` over the
applications with a non-null score: a stable descending sort (modelled by
`mergeSort`, which is stable), truncated to five entries. -/
def topCandidates (applications : List ApplicationRec) : List ApplicationRec :=
  ((applications.filter (fun app => app.ai_score.isSome)).mergeSort
    (fun a b => decide (scoreKey b ≤ scoreKey a))).take 5

/-- One element of `top_candidates_data` in `generate_report_summary`. -/
def candidateEntry (app : ApplicationRec) : CandidateEntry :=
  { email := app.applicant_email
    score := scoreKey app
    status := app.status
    skills := match app.parsed_data with
      | some p => p.skills
      | none => [] }

/-- The `top_candidates` field of the report summary. -/
def top_candidates_data (applications : List ApplicationRec) : List CandidateEntry :=
  (topCandidates applications).map candidateEntry

/-! ## Named components of the scoring computation (for the theorems below;
each is definitionally equal to the corresponding piece of `basic_scoring`). -/

/-- The `matches` counter of `_basic_scoring`. -/
def matchCount (job_requirements : Str) (p : ParsedCV) : Nat :=
  (extract_keywords job_requirements).countP
    (fun keyword => p.skills.any (fun skill => pyIn (lowerStr keyword) (lowerStr skill)))

/-- The score of `_basic_scoring` before clamping. -/
def preClampScore (job_requirements : Str) (p : ParsedCV) : ℚ :=
  (if (extract_keywords job_requirements).length ≠ 0 then
      50 + min ((matchCount job_requirements p : ℚ) /
        ((extract_keywords job_requirements).length : ℚ) * 100 * 0.4) 40
    else 50)
    + (if p.text_length > 2000 then 10 else if p.text_length > 1000 then 5 else 0)

/-- The clamped (rational) score of `_basic_scoring`. -/
def clampedScore (job_requirements : Str) (p : ParsedCV) : ℚ :=
  max 0 (min 100 (preClampScore job_requirements p))

/-- The sorted list of scored applications underlying the top-candidates
computation (before truncation to five). -/
def sortedScored (applications : List ApplicationRec) : List ApplicationRec :=
  (applications.filter (fun app => app.ai_score.isSome)).mergeSort
    (fun a b => decide (scoreKey b ≤ scoreKey a))

/-! ## Spec-side definitions (written from the specification's words, to be
compared with the code-derived definitions). -/

/-- The email-detection rule as the specification words it: over the
whitespace-delimited tokens of the lines containing both `@` and `.`, in line
order then token order, the first token containing exactly one `@` and at
least one `.`, lower-cased and trimmed; absent if there is none. -/
def specEmail (text : Str) : Option Str :=
  ((((splitLines text).filter
      (fun line => line.contains '@' && line.contains '.')).flatMap pyWords).find?
    (fun w => (w.count '@' == 1) && w.contains '.')).map
    (fun w => lowerStr (pyStrip w))

/-! ## Concrete fixtures used by the witness theorems. -/

/-- A concrete job row. -/
def exJob : JobRec := { id := 7, requirements := [] }

/-- A concrete pending application row linked to `exJob`. -/
def exApp : ApplicationRec := { id := 1, job_id := 7, applicant_email := "a@b.com" }

/-- A concrete store holding `exApp` and `exJob`. -/
def exDB : DB := { applications := [exApp], jobs := [exJob] }

/-- An environment in which no step raises. -/
def exEnvOk : PipelineEnv :=
  { hasOpenAIKey := false, fileExists := fun _ => false, parseResult := fun _ => none,
    parseRaises := false, scoreRaises := false, commitRaises := false }

/-- An environment in which the parsing step raises an unexpected error. -/
def exEnvParseFail : PipelineEnv :=
  { hasOpenAIKey := false, fileExists := fun _ => false, parseResult := fun _ => none,
    parseRaises := true, scoreRaises := false, commitRaises := false }

/-- An environment in which the persistence commit raises. -/
def exEnvCommitFail : PipelineEnv :=
  { hasOpenAIKey := false, fileExists := fun _ => false, parseResult := fun _ => none,
    parseRaises := false, scoreRaises := false, commitRaises := true }

/-! ## Helper lemmas about the scoring computation -/

theorem basic_scoring_score (job_requirements : Str) (p : ParsedCV) :
    (basic_scoring job_requirements p).score = pyInt (clampedScore job_requirements p) := rfl

theorem basic_scoring_status (job_requirements : Str) (p : ParsedCV) :
    (basic_scoring job_requirements p).status =
      (if clampedScore job_requirements p ≥ 75 then AppStatus.shortlisted
       else if clampedScore job_requirements p ≥ 50 then AppStatus.flagged
       else AppStatus.rejected) := rfl

theorem clampedScore_nonneg (job_requirements : Str) (p : ParsedCV) :
    0 ≤ clampedScore job_requirements p := le_max_left _ _

theorem clampedScore_le_hundred (job_requirements : Str) (p : ParsedCV) :
    clampedScore job_requirements p ≤ 100 :=
  max_le (by norm_num) (min_le_left _ _)

theorem le_preClampScore (job_requirements : Str) (p : ParsedCV) :
    50 ≤ preClampScore job_requirements p := by
  unfold preClampScore
  have h1 : (50 : ℚ) ≤
      (if (extract_keywords job_requirements).length ≠ 0 then
        50 + min ((matchCount job_requirements p : ℚ) /
          ((extract_keywords job_requirements).length : ℚ) * 100 * 0.4) 40
      else 50) := by
    split_ifs with h
    · have hb : (0 : ℚ) ≤ min ((matchCount job_requirements p : ℚ) /
          ((extract_keywords job_requirements).length : ℚ) * 100 * 0.4) 40 := by
        refine le_min ?_ (by norm_num)
        positivity
      linarith
    · exact le_refl _
  have h2 : (0 : ℚ) ≤
      (if p.text_length > 2000 then (10 : ℚ) else if p.text_length > 1000 then 5 else 0) := by
    split_ifs <;> norm_num
  linarith

theorem le_clampedScore (job_requirements : Str) (p : ParsedCV) :
    50 ≤ clampedScore job_requirements p := by
  unfold clampedScore
  exact (le_min (by norm_num) (le_preClampScore job_requirements p)).trans (le_max_right _ _)

theorem score_eq_floor (job_requirements : Str) (p : ParsedCV) :
    (basic_scoring job_requirements p).score = ⌊clampedScore job_requirements p⌋ := by
  rw [basic_scoring_score, pyInt, if_pos (clampedScore_nonneg job_requirements p)]

/-! ## Claim theorems: scoring engine -/

/-- **C3**: for every requirements string and every facts record (including the
empty record), the score of the scoring result is an integer in [0, 100]. -/
theorem score_within_bounds (job_requirements : Str) (facts : ParsedCV) :
    0 ≤ (basic_scoring job_requirements facts).score ∧
      (basic_scoring job_requirements facts).score ≤ 100 := by
  rw [score_eq_floor]
  refine ⟨Int.le_floor.mpr (by exact_mod_cast clampedScore_nonneg job_requirements facts), ?_⟩
  have h : clampedScore job_requirements facts ≤ ((100 : ℤ) : ℚ) := by
    exact_mod_cast clampedScore_le_hundred job_requirements facts
  calc ⌊clampedScore job_requirements facts⌋ ≤ ⌊((100 : ℤ) : ℚ)⌋ := Int.floor_le_floor h
    _ = 100 := Int.floor_intCast _

/-- **C4**: the status of the scoring result is a deterministic function of the
clamped score: shortlisted iff score ≥ 75, flagged iff 50 ≤ score < 75,
rejected iff score < 50. -/
theorem status_from_score (job_requirements : Str) (facts : ParsedCV) :
    (basic_scoring job_requirements facts).status =
      (if (basic_scoring job_requirements facts).score ≥ 75 then AppStatus.shortlisted
       else if (basic_scoring job_requirements facts).score ≥ 50 then AppStatus.flagged
       else AppStatus.rejected) := by
  rw [basic_scoring_status, score_eq_floor]
  have h75 : ((75 : ℤ) ≤ ⌊clampedScore job_requirements facts⌋) ↔
      ((75 : ℚ) ≤ clampedScore job_requirements facts) := by
    rw [Int.le_floor]; norm_num
  have h50 : ((50 : ℤ) ≤ ⌊clampedScore job_requirements facts⌋) ↔
      ((50 : ℚ) ≤ clampedScore job_requirements facts) := by
    rw [Int.le_floor]; norm_num
  by_cases hc : (75 : ℚ) ≤ clampedScore job_requirements facts
  · rw [if_pos hc, if_pos (h75.mpr hc)]
  · rw [if_neg hc, if_neg (fun hh => hc (h75.mp hh))]
    by_cases hc2 : (50 : ℚ) ≤ clampedScore job_requirements facts
    · rw [if_pos hc2, if_pos (h50.mpr hc2)]
    · rw [if_neg hc2, if_neg (fun hh => hc2 (h50.mp hh))]

/-- **C10**: the basic scoring path always returns a score of at least 50 and
therefore never the status rejected. -/
theorem basic_never_rejected (job_requirements : Str) (facts : ParsedCV) :
    50 ≤ (basic_scoring job_requirements facts).score ∧
      (basic_scoring job_requirements facts).status ≠ AppStatus.rejected := by
  have h := le_clampedScore job_requirements facts
  constructor
  · rw [score_eq_floor]
    exact Int.le_floor.mpr (by exact_mod_cast h)
  · rw [basic_scoring_status]
    by_cases h1 : clampedScore job_requirements facts ≥ 75
    · rw [if_pos h1]
      exact fun hx => AppStatus.noConfusion hx
    · rw [if_neg h1, if_pos h]
      exact fun hx => AppStatus.noConfusion hx

/-- **C5**: with requirements and the rest of the facts fixed, adding a skill
that matches at least one required keyword never decreases the score. -/
theorem score_monotone_in_skills (job_requirements : Str) (facts : ParsedCV) (skill : Str)
    (h : ∃ keyword ∈ extract_keywords job_requirements,
        pyIn (lowerStr keyword) (lowerStr skill) = true) :
    (basic_scoring job_requirements facts).score ≤
      (basic_scoring job_requirements { facts with skills := skill :: facts.skills }).score := by
  clear h
  rw [score_eq_floor, score_eq_floor]
  apply Int.floor_le_floor
  unfold clampedScore preClampScore
  have hmN : matchCount job_requirements facts ≤
      matchCount job_requirements { facts with skills := skill :: facts.skills } := by
    unfold matchCount
    apply List.countP_mono_left
    intro kw _ hkw
    simp only [List.any_cons]
    rw [hkw, Bool.or_true]
  have hm : (matchCount job_requirements facts : ℚ) ≤
      (matchCount job_requirements { facts with skills := skill :: facts.skills } : ℚ) := by
    exact_mod_cast hmN
  have hA : (if (extract_keywords job_requirements).length ≠ 0 then
        50 + min ((matchCount job_requirements facts : ℚ) /
          ((extract_keywords job_requirements).length : ℚ) * 100 * 0.4) 40
      else 50) ≤
      (if (extract_keywords job_requirements).length ≠ 0 then
        50 + min ((matchCount job_requirements
            { facts with skills := skill :: facts.skills } : ℚ) /
          ((extract_keywords job_requirements).length : ℚ) * 100 * 0.4) 40
      else 50) := by
    split_ifs with hk
    · have hk' : (0 : ℚ) < ((extract_keywords job_requirements).length : ℚ) := by
        exact_mod_cast Nat.pos_of_ne_zero hk
      gcongr
    · exact le_refl _
  exact max_le_max (le_refl _) (min_le_min (le_refl _) (add_le_add_right hA _))

/-! ## Claim theorems: fact extractor preview -/

/-- **C7**: the preview equals the full text when it has at most 500
characters, and the first 500 characters (exactly 500 of them) followed by the
marker when longer. -/
theorem preview_truncation (text : Str) :
    (text.length ≤ 500 → (extract_info_from_text text).raw_text_preview = text) ∧
    (500 < text.length →
      (extract_info_from_text text).raw_text_preview = text.take 500 ++ "...".toList ∧
        (text.take 500).length = 500) := by
  constructor
  · intro h
    simp only [extract_info_from_text]
    rw [if_neg (by omega)]
  · intro h
    simp only [extract_info_from_text]
    rw [if_pos (by omega)]
    refine ⟨rfl, ?_⟩
    simp only [List.length_take]
    omega

/-- Witness for `preview_truncation` at a 501-character text. -/
theorem preview_truncation_witness :
    500 < (List.replicate 501 'a').length ∧
      ((extract_info_from_text (List.replicate 501 'a')).raw_text_preview =
          (List.replicate 501 'a').take 500 ++ "...".toList ∧
        ((List.replicate 501 'a').take 500).length = 500) :=
  ⟨by rw [List.length_replicate]; omega,
    (preview_truncation (List.replicate 501 'a')).2 (by rw [List.length_replicate]; omega)⟩

/-- Witness for `score_monotone_in_skills`: requirements "python", empty facts,
added skill "python". -/
theorem score_monotone_in_skills_witness :
    (∃ keyword ∈ extract_keywords "python".toList,
        pyIn (lowerStr keyword) (lowerStr "python".toList) = true) ∧
      (basic_scoring "python".toList {}).score ≤
        (basic_scoring "python".toList
          { ({} : ParsedCV) with skills := "python".toList :: ({} : ParsedCV).skills }).score :=
  ⟨by decide, score_monotone_in_skills "python".toList {} "python".toList (by decide)⟩

/-! ## Helper lemmas: characters, vocabulary, words -/

theorem toNat_ofNat_of_valid {n : Nat} (h : n < 55296) : (Char.ofNat n).toNat = n := by
  have hv : n.isValidChar := Or.inl h
  rw [Char.ofNat, dif_pos hv]
  rfl

theorem beq_at_pyLowerChar (c : Char) : (pyLowerChar c == '@') = (c == '@') := by
  unfold pyLowerChar
  split_ifs with h
  · have h1 : (Char.ofNat (c.toNat + 32)).toNat = c.toNat + 32 := toNat_ofNat_of_valid (by omega)
    have h64 : ('@' : Char).toNat = 64 := rfl
    have hne1 : Char.ofNat (c.toNat + 32) ≠ '@' := by
      intro he
      have h2 := congrArg Char.toNat he
      rw [h1, h64] at h2
      omega
    have hne2 : c ≠ '@' := by
      intro he
      rw [he, h64] at h
      omega
    rw [beq_eq_false_iff_ne.mpr hne1, beq_eq_false_iff_ne.mpr hne2]
  · rfl

theorem count_at_lowerStr (w : Str) : (lowerStr w).count '@' = w.count '@' := by
  unfold lowerStr
  simp only [List.count, List.countP_map]
  apply List.countP_congr
  intro c _
  show ((pyLowerChar c == '@') = true) ↔ ((c == '@') = true)
  rw [beq_at_pyLowerChar c]

theorem lower_title_vocab : ∀ s ∈ skills_keywords, lowerStr (pyTitle s) = s := by decide

theorem lower_vocab : ∀ s ∈ common_skills, lowerStr s = s := by decide

theorem vocab_filter_eq :
    skills_keywords = common_skills.filter (fun s => !(softSkillTerms.contains s)) := by decide

theorem pyWordsAux_no_space (rest : Str) : ∀ (acc : Str), (∀ c ∈ acc, isPySpace c = false) →
    ∀ w ∈ pyWordsAux acc rest, ∀ c ∈ w, isPySpace c = false := by
  induction rest with
  | nil =>
    intro acc hacc w hw c hc
    simp only [pyWordsAux] at hw
    by_cases h0 : acc.isEmpty
    · rw [if_pos h0] at hw
      exact absurd hw (List.not_mem_nil w)
    · rw [if_neg h0] at hw
      rcases List.mem_singleton.mp hw with rfl
      exact hacc c (List.mem_reverse.mp hc)
  | cons d rest ih =>
    intro acc hacc w hw c hc
    simp only [pyWordsAux] at hw
    by_cases hd : isPySpace d = true
    · rw [if_pos hd] at hw
      by_cases h0 : acc.isEmpty
      · rw [if_pos h0] at hw
        exact ih [] (by intro e he; exact absurd he (List.not_mem_nil e)) w hw c hc
      · rw [if_neg h0] at hw
        rcases List.mem_cons.mp hw with rfl | h1
        · exact hacc c (List.mem_reverse.mp hc)
        · exact ih [] (by intro e he; exact absurd he (List.not_mem_nil e)) w h1 c hc
    · rw [if_neg hd] at hw
      refine ih (d :: acc) ?_ w hw c hc
      intro e he
      rcases List.mem_cons.mp he with rfl | he'
      · exact Bool.eq_false_iff.mpr hd
      · exact hacc e he'

theorem pyWords_no_space (line : Str) : ∀ w ∈ pyWords line, ∀ c ∈ w, isPySpace c = false :=
  pyWordsAux_no_space line [] (fun c hc => absurd hc (List.not_mem_nil c))

theorem dropWhile_eq_self_of_no_space {l : Str} (h : ∀ c ∈ l, isPySpace c = false) :
    l.dropWhile isPySpace = l := by
  cases l with
  | nil => rfl
  | cons c cs =>
    rw [List.dropWhile_cons, if_neg]
    rw [h c (List.mem_cons_self c cs)]
    simp

theorem pyStrip_eq_self {w : Str} (h : ∀ c ∈ w, isPySpace c = false) : pyStrip w = w := by
  unfold pyStrip
  rw [dropWhile_eq_self_of_no_space h]
  rw [dropWhile_eq_self_of_no_space (fun c hc => h c (List.mem_reverse.mp hc))]
  exact List.reverse_reverse w

theorem contains_eq_false_of_no_space {w : Str} (h : ∀ c ∈ w, isPySpace c = false) :
    w.contains ' ' = false := by
  by_contra hc
  have h1 : (' ' : Char) ∈ w := by
    have := Bool.of_not_eq_false hc
    simpa using this
  have := h ' ' h1
  simp [isPySpace] at this

theorem contains_of_count_eq_one {w : Str} (h : w.count '@' = 1) : w.contains '@' = true := by
  have h1 : ('@' : Char) ∈ w := List.count_pos_iff.mp (by omega)
  simpa using h1

theorem email_candidate_eq {w : Str} (hsp : ∀ c ∈ w, isPySpace c = false) :
    (if w.contains '@' && w.contains '.' && !(w.contains ' ') then
      (if (lowerStr (pyStrip w)).count '@' = 1 then some (lowerStr (pyStrip w)) else none)
     else none)
    = (if ((w.count '@' == 1) && w.contains '.') = true then
        some (lowerStr (pyStrip w)) else none) := by
  have hc : (lowerStr (pyStrip w)).count '@' = w.count '@' := by
    rw [pyStrip_eq_self hsp, count_at_lowerStr]
  rw [contains_eq_false_of_no_space hsp]
  simp only [Bool.not_false, Bool.and_true, hc]
  by_cases h1 : w.count '@' = 1
  · rw [contains_of_count_eq_one h1]
    by_cases h2 : w.contains '.' = true
    · simp [h1, h2]
    · simp [h1, h2, Bool.eq_false_iff.mpr h2]
  · by_cases h2 : w.contains '@' = true
    · by_cases h3 : w.contains '.' = true
      · simp [h1, h2, h3]
      · simp [h1, h2, h3, Bool.eq_false_iff.mpr h3]
    · simp [h1, Bool.eq_false_iff.mpr h2]

theorem findSome?_words_eq {ws : List Str}
    (hws : ∀ w ∈ ws, ∀ c ∈ w, isPySpace c = false) :
    (ws.findSome? (fun word =>
      if word.contains '@' && word.contains '.' && !(word.contains ' ') then
        (if (lowerStr (pyStrip word)).count '@' = 1 then
          some (lowerStr (pyStrip word)) else none)
      else none))
    = (ws.find? (fun w => (w.count '@' == 1) && w.contains '.')).map
        (fun w => lowerStr (pyStrip w)) := by
  induction ws with
  | nil => rfl
  | cons w ws ih =>
    rw [List.findSome?_cons]
    rw [email_candidate_eq (hws w (List.mem_cons_self w ws))]
    by_cases hp : ((w.count '@' == 1) && w.contains '.') = true
    · rw [if_pos hp, List.find?_cons_of_pos ws hp]
      rfl
    · rw [if_neg hp, List.find?_cons_of_neg ws hp]
      exact ih (fun v hv => hws v (List.mem_cons_of_mem w hv))

theorem findSome?_lines_eq (lines : List Str) :
    lines.findSome? findEmailInLine =
      (((lines.filter (fun line => line.contains '@' && line.contains '.')).flatMap
        pyWords).find? (fun w => (w.count '@' == 1) && w.contains '.')).map
        (fun w => lowerStr (pyStrip w)) := by
  induction lines with
  | nil => rfl
  | cons line rest ih =>
    rw [List.findSome?_cons]
    by_cases hL : (line.contains '@' && line.contains '.') = true
    · rw [List.filter_cons, if_pos hL, List.flatMap_cons, List.find?_append]
      have hwords := findSome?_words_eq (pyWords_no_space line)
      have hline : findEmailInLine line =
          ((pyWords line).find? (fun w => (w.count '@' == 1) && w.contains '.')).map
            (fun w => lowerStr (pyStrip w)) := by
        unfold findEmailInLine
        rw [if_pos hL]
        exact hwords
      rw [hline]
      cases hfind : (pyWords line).find? (fun w => (w.count '@' == 1) && w.contains '.') with
      | some w => simp [hfind]
      | none => simp [hfind, ih]
    · have hline : findEmailInLine line = none := by
        unfold findEmailInLine
        rw [if_neg hL]
      rw [List.filter_cons, if_neg hL, hline, ih]

/-! ## Claim theorems: email extraction and vocabularies -/

/-- **C9**: the extracted email is exactly what the specification describes:
the first whitespace-delimited token, in line order then token order among the
lines containing both `@` and `.`, that contains exactly one `@` and at least
one `.`, lower-cased and trimmed; absent when no such token exists. -/
theorem email_extraction_matches_spec (text : Str) :
    extractEmail text = specEmail text := by
  unfold extractEmail specEmail
  exact findSome?_lines_eq (splitLines text)

/-- **C1** is false on the code: on the input text "agile" the scoring
engine's keyword extraction recognizes the vocabulary term "agile" while the
fact extractor's vocabulary does not contain it, so the two recognized sets
(compared case-insensitively) differ. -/
theorem vocab_not_identical_on_agile :
    ¬ (((parser_found_skills "agile".toList).map lowerStr).toFinset =
        ((extract_keywords "agile".toList).map lowerStr).toFinset) := by decide

/-- **C1 (amended)**: the fact extractor's vocabulary is the scoring engine's
vocabulary minus the six soft-skill terms (agile, scrum, project management,
leadership, communication, teamwork), and on every input text the set of
terms recognized by the fact extractor (compared case-insensitively) equals
the set recognized by the scoring engine with those six terms removed. -/
theorem vocab_agreement_up_to_soft_skills :
    skills_keywords = common_skills.filter (fun s => !(softSkillTerms.contains s)) ∧
    ∀ text : Str,
      ((parser_found_skills text).map lowerStr).toFinset =
        (((extract_keywords text).filter (fun s => !(softSkillTerms.contains s))).map
          lowerStr).toFinset := by
  refine ⟨vocab_filter_eq, ?_⟩
  intro text
  ext a
  simp only [List.mem_toFinset, List.mem_map, parser_found_skills, extract_keywords,
    List.mem_dedup, List.mem_filter]
  constructor
  · rintro ⟨x, ⟨y, ⟨hy, hpy⟩, rfl⟩, rfl⟩
    have hy2 := hy
    rw [vocab_filter_eq] at hy2
    have hy' := List.mem_filter.mp hy2
    refine ⟨y, ⟨⟨hy'.1, hpy⟩, hy'.2⟩, ?_⟩
    rw [lower_title_vocab y hy, lower_vocab y hy'.1]
  · rintro ⟨x, ⟨⟨hx, hpx⟩, hsoft⟩, rfl⟩
    have hx' : x ∈ skills_keywords := by
      rw [vocab_filter_eq, List.mem_filter]
      exact ⟨hx, hsoft⟩
    refine ⟨pyTitle x, ⟨x, ⟨hx', hpx⟩, rfl⟩, ?_⟩
    rw [lower_title_vocab x hx', lower_vocab x hx]

/-! ## Claim theorems: the background pipeline -/

/-- **C6**: when the application or its parent job is missing, the pipeline is
a silent no-op: the store is returned unchanged and nothing is raised (the
model is a total function). -/
theorem lookup_miss_is_noop (env : PipelineEnv) (db : DB) (application_id : Nat)
    (h : findApp db application_id = none ∨
      ∃ app, findApp db application_id = some app ∧ findJob db app.job_id = none) :
    process env db application_id = db := by
  rcases h with h | ⟨app, hA, hJ⟩
  · simp [process, h]
  · simp [process, hA, hJ]

/-- Witness for `lookup_miss_is_noop`: id 0 is absent from `exDB`. -/
theorem lookup_miss_is_noop_witness :
    (findApp exDB 0 = none ∨
      ∃ app, findApp exDB 0 = some app ∧ findJob exDB app.job_id = none) ∧
      process exEnvOk exDB 0 = exDB :=
  ⟨Or.inl rfl, lookup_miss_is_noop exEnvOk exDB 0 (Or.inl rfl)⟩

/-- **C2** is false on the code: when the error occurs at the persistence
commit, the recovery commit in the `except` block persists the application
object that already carries the freshly assigned `ai_score` and `parsed_data`,
so they are not left unchanged (here `ai_score` goes from `None` to 50). -/
theorem flag_commit_persists_score :
    findApp exDB 1 = some exApp ∧
    findJob exDB exApp.job_id = some exJob ∧
    exApp.ai_score = none ∧
    findApp (process exEnvCommitFail exDB 1) 1 =
      some { exApp with parsed_data := none, ai_score := some 50,
                        status := AppStatus.flagged } := by
  refine ⟨rfl, rfl, rfl, ?_⟩
  with_unfolding_all decide

/-- **C2 (amended)**: the pipeline never raises (it is a total function on the
model); on an unexpected error during parsing or scoring the application is
committed with status `flagged` and its `ai_score` and `parsed_data`
unchanged, while on an error at the persistence commit the recovery commit
stores status `flagged` together with the newly computed `ai_score` and
`parsed_data`. -/
theorem pipeline_failure_flags (env : PipelineEnv) (db : DB) (application_id : Nat)
    (app : ApplicationRec) (job : JobRec)
    (hA : findApp db application_id = some app)
    (hJ : findJob db app.job_id = some job) :
    (env.parseRaises = true ∨ env.scoreRaises = true →
      process env db application_id = writeApp db { app with status := AppStatus.flagged }) ∧
    (env.parseRaises = false → env.scoreRaises = false → env.commitRaises = true →
      process env db application_id =
        writeApp db { app with
          parsed_data := pipelineParsed env app
          ai_score := some (pipelineScore env job app).score
          status := AppStatus.flagged }) := by
  constructor
  · intro hps
    by_cases hp : env.parseRaises = true
    · simp [process, processInner, hA, hJ, hp]
    · rcases hps with hps | hs
      · exact absurd hps hp
      · simp [process, processInner, hA, hJ, hp, hs]
  · intro hp hs hc
    simp [process, processInner, hA, hJ, hp, hs, hc]

/-- Witness for `pipeline_failure_flags`: a parse-step error on `exDB`. -/
theorem pipeline_failure_flags_witness :
    findApp exDB 1 = some exApp ∧ findJob exDB exApp.job_id = some exJob ∧
      (exEnvParseFail.parseRaises = true ∨ exEnvParseFail.scoreRaises = true →
        process exEnvParseFail exDB 1 =
          writeApp exDB { exApp with status := AppStatus.flagged }) :=
  ⟨rfl, rfl, (pipeline_failure_flags exEnvParseFail exDB 1 exApp exJob rfl rfl).1⟩

/-! ## Claim theorems: report top candidates -/

/-- **C8**: the report's top-candidates list is the stable descending sort of
exactly the applications with a non-null score, truncated to at most five
entries, each exposing email, score, status and skills (empty when no parsed
facts): the sorted list is a permutation of the filtered applications, is
pairwise descending in score, preserves the input order of equal-score pairs,
and the emitted entries are its first five images under `candidateEntry`. -/
theorem report_top_candidates (applications : List ApplicationRec) :
    top_candidates_data applications = ((sortedScored applications).take 5).map candidateEntry ∧
    (sortedScored applications).Perm
      (applications.filter (fun app => app.ai_score.isSome)) ∧
    (sortedScored applications).Pairwise (fun a b => scoreKey b ≤ scoreKey a) ∧
    (∀ a b, scoreKey a = scoreKey b →
      [a, b].Sublist (applications.filter (fun app => app.ai_score.isSome)) →
      [a, b].Sublist (sortedScored applications)) ∧
    (top_candidates_data applications).length ≤ 5 ∧
    (∀ app ∈ topCandidates applications, app.ai_score.isSome = true) ∧
    (∀ app, app.parsed_data = none → (candidateEntry app).skills = []) := by
  have trans : ∀ (a b c : ApplicationRec),
      decide (scoreKey b ≤ scoreKey a) → decide (scoreKey c ≤ scoreKey b) →
      decide (scoreKey c ≤ scoreKey a) := by
    intro a b c hab hbc
    simp only [decide_eq_true_eq] at *
    exact le_trans hbc hab
  have total : ∀ (a b : ApplicationRec),
      (decide (scoreKey b ≤ scoreKey a) || decide (scoreKey a ≤ scoreKey b)) = true := by
    intro a b
    rcases le_total (scoreKey b) (scoreKey a) with h | h <;> simp [h]
  refine ⟨rfl, List.mergeSort_perm _ _, ?_, ?_, ?_, ?_, ?_⟩
  · exact (List.sorted_mergeSort trans total
      (applications.filter (fun app => app.ai_score.isSome))).imp
      (fun hab => by simpa using hab)
  · intro a b hk hsub
    exact List.pair_sublist_mergeSort trans total (by simp [hk]) hsub
  · simp only [top_candidates_data, List.length_map, topCandidates, List.length_take]
    omega
  · intro app happ
    have h1 : app ∈ sortedScored applications :=
      List.mem_of_mem_take (l := sortedScored applications) happ
    have h2 : app ∈ applications.filter (fun app => app.ai_score.isSome) :=
      List.mem_mergeSort.mp h1
    exact (List.mem_filter.mp h2).2
  · intro app h
    simp [candidateEntry, h]

end Emil
